import Mathlib

/-!
# Verification of the SMBIOS raw-table walker and Type-1 decoder of GetSysUUID

This file gives a shallow embedding of the core of `GetSysUUID.py`
(class `ParseSMBIOSTable` and the UUID formatting in
`GetSysUUID._get_win32_uuid`) and proves or refutes the specified
properties of the structure walker, the Type-1 (System Information)
decoder and the UUID formatter.

Byte buffers are modelled as `List Nat` (Python 2 `str` of bytes);
the Python dict `table_data` is modelled as an insertion-ordered
association list; Python exceptions that escape the code
(`struct.error`, `IndexError`, `KeyError`) are modelled as `Except`
error values.
-/

set_option maxRecDepth 10000

/-- Errors the structure walk can signal.  The walker catches
`IndexError` on `SMBIOSTableData[1]` itself (loop exit), but the
`struct.unpack("<H", data[2:4])` on a remainder of 2 or 3 bytes raises
an uncaught `struct.error`; that is the only escaping failure. -/
inductive WalkError
  | structError
deriving DecidableEq

/-- Errors `parse_type1` can signal: `KeyError` from `table_data[1]`
(no structure with handle 1), `IndexError` from a single-byte read past
the end, and `struct.error` from a fixed-width `struct.unpack` fed a
short slice. -/
inductive ParseError
  | handleNotFound
  | indexError
  | structError
deriving DecidableEq

/-- The walked table: `self.table_data`, a Python dict from handle to
raw structure bytes, modelled as an insertion-ordered association
list with unique keys. -/
abbrev Table := List (Nat × List Nat)

/-- Python dict assignment `d[k] = v`: update in place if the key is
present (keeping its position), otherwise append. -/
def Table.insert : Table → Nat → List Nat → Table
  | [], k, v => [(k, v)]
  | (k0, v0) :: rest, k, v =>
    if k0 = k then (k, v) :: rest else (k0, v0) :: Table.insert rest k v

/-- Python dict read `d[k]` (first — and by construction only —
binding of the key), `none` when the key is absent (`KeyError`). -/
def Table.lookup : Table → Nat → Option (List Nat)
  | [], _ => none
  | (k0, v0) :: rest, k => if k0 = k then some v0 else Table.lookup rest k

/-- `s.find("\x00\x00")` on a byte string: index of the first position
where a byte `0` is immediately followed by another byte `0`, both
inside the string; `none` models Python's `-1`. -/
def findPair : List Nat → Option Nat
  | a :: b :: rest =>
    if a = 0 ∧ b = 0 then some 0 else (findPair (b :: rest)).map (· + 1)
  | _ => none

/-- `unformatted_len = SMBIOSTableData[formatted_len:].find(struct.pack("<H",0)) + 2`:
the `+ 2` applied to the found index, or to `-1` (yielding `1`) when no
`0x00 0x00` pair exists at/after offset `fl`. -/
def unformattedLen (data : List Nat) (fl : Nat) : Nat :=
  match findPair (data.drop fl) with
  | some i => i + 2
  | none => 1

/-- `struct.unpack("<H", data[2:4])[0]`: the little-endian 16-bit
handle at byte offsets 2–3. -/
def handleOf (data : List Nat) : Nat :=
  data.getD 2 0 + 256 * data.getD 3 0

/-- One-loop-at-a-time embedding of `ParseSMBIOSTable.walk_structure`.
Each iteration reads `formatted_len = data[1]` (an `IndexError` here,
i.e. fewer than 2 bytes remaining, breaks the loop), unpacks the
handle from `data[2:4]` (`struct.error` when fewer than 4 bytes
remain), finds the `0x00 0x00` terminator from offset `formatted_len`,
stores `data[:formatted_len+unformatted_len]` under the handle, and
continues on the remainder.  `fuel` bounds the number of iterations;
`data.length` iterations always suffice because every iteration
consumes at least one byte (see `walk_structure_terminates`). -/
def walkAux : Nat → List Nat → Table → Except WalkError Table
  | 0, _, table => .ok table
  | fuel + 1, data, table =>
    if data.length < 2 then .ok table
    else if data.length < 4 then .error .structError
    else
      let fl := data.getD 1 0
      let consumed := fl + unformattedLen data fl
      walkAux fuel (data.drop consumed)
        (Table.insert table (handleOf data) (data.take consumed))

/-- `ParseSMBIOSTable.walk_structure` on a fresh instance: walk the
whole buffer starting from an empty `table_data`. -/
def walk_structure (data : List Nat) : Except WalkError Table :=
  walkAux data.length data []

/-- The decoded `type1_data` dict.  Field names follow the dict keys
`"Length"`, `"Handle"`, `"Manufacturer"`, `"Product Name"`,
`"Version"`, `"Serial Number"`, `"UUID"`, `"Wake-up Type"`,
`"SKU Number"`, `"Family"`; the last two are `Option` because the
source leaves them unset when an `IndexError` is caught. -/
structure Type1Data where
  length : Nat
  handle : Nat
  manufacturer : Nat
  product_name : Nat
  version : Nat
  serial_number : Nat
  uuid : List Nat
  wakeup_type : Nat
  sku_number : Option Nat
  family : Option Nat
deriving DecidableEq

/-- Embedding of `ParseSMBIOSTable.parse_type1`.  `raw_data =
self.table_data[1]` (a `KeyError` is `handleNotFound`); then the reads
in source order: `raw_data[1]`, `raw_data[2:4]`, `raw_data[5]`,
`raw_data[6]`, `raw_data[7]`, `raw_data[8]`, `raw_data[8:24]`,
`raw_data[25]`, and inside the `try:` block `raw_data[26]` then
`raw_data[27]`, whose `IndexError` is caught and leaves the optional
fields unset (so a 27-byte structure gets `sku_number` but no
`family`). -/
def parse_type1 (table_data : Table) : Except ParseError Type1Data :=
  match Table.lookup table_data 1 with
  | none => .error .handleNotFound
  | some raw_data =>
    if raw_data.length < 2 then .error .indexError
    else if raw_data.length < 4 then .error .structError
    else if raw_data.length < 6 then .error .indexError
    else if raw_data.length < 7 then .error .indexError
    else if raw_data.length < 8 then .error .indexError
    else if raw_data.length < 9 then .error .indexError
    else if raw_data.length < 24 then .error .structError
    else if raw_data.length < 26 then .error .indexError
    else .ok {
      length := raw_data.getD 1 0
      handle := raw_data.getD 2 0 + 256 * raw_data.getD 3 0
      manufacturer := raw_data.getD 5 0
      product_name := raw_data.getD 6 0
      version := raw_data.getD 7 0
      serial_number := raw_data.getD 8 0
      uuid := (raw_data.drop 8).take 16
      wakeup_type := raw_data.getD 25 0
      sku_number := if raw_data.length < 27 then none else some (raw_data.getD 26 0)
      family := if raw_data.length < 28 then none else some (raw_data.getD 27 0) }

/-- Python's `"%x" % n` for a nonnegative integer: minimal-width
lowercase hexadecimal, no zero padding (`0` renders as `"0"`). -/
def pyHex (n : Nat) : String :=
  String.mk (Nat.toDigits 16 n)

/-- The UUID formatting of `GetSysUUID._get_win32_uuid`:
`"%x%x%x%x-%x%x-%x%x-%x%x-%x%x%x%x%x%x" % raw_uuid`, applied to the
16-tuple unpacked from `raw_data[8:24]`. -/
def format_uuid (u : List Nat) : String :=
  pyHex (u.getD 0 0) ++ pyHex (u.getD 1 0) ++ pyHex (u.getD 2 0) ++
    pyHex (u.getD 3 0) ++ "-" ++
  pyHex (u.getD 4 0) ++ pyHex (u.getD 5 0) ++ "-" ++
  pyHex (u.getD 6 0) ++ pyHex (u.getD 7 0) ++ "-" ++
  pyHex (u.getD 8 0) ++ pyHex (u.getD 9 0) ++ "-" ++
  pyHex (u.getD 10 0) ++ pyHex (u.getD 11 0) ++ pyHex (u.getD 12 0) ++
    pyHex (u.getD 13 0) ++ pyHex (u.getD 14 0) ++ pyHex (u.getD 15 0)

/-- A well-formed SMBIOS structure as a standalone byte string: its
declared formatted length (byte 1) is at least 4, the structure is the
formatted section followed by an unformatted section, and the first
`0x00 0x00` pair at or after the formatted section is exactly the
final two bytes (the string-list terminator). -/
def WellFormed (s : List Nat) : Prop :=
  4 ≤ s.getD 1 0 ∧ s.getD 1 0 + 2 ≤ s.length ∧
  findPair (s.drop (s.getD 1 0)) = some (s.length - (s.getD 1 0 + 2))

instance (s : List Nat) : Decidable (WellFormed s) := by
  unfold WellFormed; infer_instance

/-- The last structure in a list whose handle is `h`, if any: what
"last write wins" leaves in a dict keyed by handle. -/
def lastWith (h : Nat) : List (List Nat) → Option (List Nat)
  | [] => none
  | s :: rest =>
    match lastWith h rest with
    | some r => some r
    | none => if handleOf s = h then some s else none

/-- The table the walk builds from a list of structures: fold the
dict insertions in table order. -/
def tableOf (structs : List (List Nat)) : Table :=
  structs.foldl (fun t s => Table.insert t (handleOf s) s) []

/-! ## Helper lemmas -/

/-- The unformatted length is never zero: `find` returns at least `-1`,
so after `+ 2` the result is at least `1`. -/
theorem unformattedLen_pos (data : List Nat) (fl : Nat) :
    1 ≤ unformattedLen data fl := by
  unfold unformattedLen
  cases findPair (data.drop fl) <;> simp

/-- With fewer than 2 bytes remaining the loop breaks (the `IndexError`
on `data[1]` is caught), whatever the fuel. -/
theorem walkAux_short (fuel : Nat) (data : List Nat) (t : Table)
    (h : data.length < 2) : walkAux fuel data t = .ok t := by
  cases fuel with
  | zero => rfl
  | succ f => simp only [walkAux, if_pos h]

/-- Unfolding equation for one iteration of the walk loop. -/
theorem walkAux_succ (fuel : Nat) (data : List Nat) (t : Table) :
    walkAux (fuel + 1) data t =
      if data.length < 2 then .ok t
      else if data.length < 4 then .error .structError
      else
        walkAux fuel
          (data.drop (data.getD 1 0 + unformattedLen data (data.getD 1 0)))
          (Table.insert t (handleOf data)
            (data.take (data.getD 1 0 + unformattedLen data (data.getD 1 0)))) := rfl

theorem findPair_cons_cons (a b : Nat) (rest : List Nat) :
    findPair (a :: b :: rest) =
      if a = 0 ∧ b = 0 then some 0 else (findPair (b :: rest)).map (· + 1) := rfl

/-- A `0x00 0x00` pair found wholly inside `xs` is still the first pair
after appending more bytes: any pair of `xs ++ ys` spanning the border
starts at `xs.length - 1`, which lies after a pair inside `xs`. -/
theorem findPair_append_some (xs ys : List Nat) (i : Nat)
    (h : findPair xs = some i) : findPair (xs ++ ys) = some i := by
  induction xs generalizing i with
  | nil => simp [findPair] at h
  | cons a tail ih =>
    cases tail with
    | nil => simp [findPair] at h
    | cons b rest =>
      rw [List.cons_append, List.cons_append, findPair_cons_cons]
      rw [findPair_cons_cons] at h
      by_cases hab : a = 0 ∧ b = 0
      · rw [if_pos hab] at h ⊢; exact h
      · rw [if_neg hab] at h ⊢
        cases hq : findPair (b :: rest) with
        | none => rw [hq] at h; simp at h
        | some j =>
          rw [hq] at h
          simp only [Option.map_some'] at h
          have h2 := ih j hq
          rw [List.cons_append] at h2
          rw [h2]
          simpa using h

/-- Fuel irrelevance: any fuel at least `data.length` computes the same
walk, because every iteration strictly shrinks the buffer. -/
theorem walkAux_congr (f : Nat) : ∀ (g : Nat) (data : List Nat) (t : Table),
    data.length ≤ f → data.length ≤ g → walkAux f data t = walkAux g data t := by
  induction f with
  | zero =>
    intro g data t hf _
    have h2 : data.length < 2 := by omega
    rw [walkAux_short 0 data t h2, walkAux_short g data t h2]
  | succ f ih =>
    intro g data t hf hg
    by_cases h2 : data.length < 2
    · rw [walkAux_short _ _ _ h2, walkAux_short _ _ _ h2]
    · cases g with
      | zero => omega
      | succ g =>
        rw [walkAux_succ, walkAux_succ, if_neg h2, if_neg h2]
        by_cases h4 : data.length < 4
        · rw [if_pos h4, if_pos h4]
        · rw [if_neg h4, if_neg h4]
          have hul := unformattedLen_pos data (data.getD 1 0)
          apply ih <;> (rw [List.length_drop]; omega)

/-- Behaviour of dict lookup after a dict insertion. -/
theorem lookup_insert (t : Table) (k : Nat) (v : List Nat) (h : Nat) :
    Table.lookup (Table.insert t k v) h =
      if k = h then some v else Table.lookup t h := by
  induction t with
  | nil =>
    simp only [Table.insert, Table.lookup]
  | cons p rest ih =>
    obtain ⟨k0, v0⟩ := p
    by_cases hk : k0 = k
    · subst hk
      simp only [Table.insert, if_pos rfl, Table.lookup]
      by_cases hk0 : k0 = h
      · rw [if_pos hk0, if_pos hk0]
      · rw [if_neg hk0, if_neg hk0, if_neg hk0]
    · simp only [Table.insert, if_neg hk, Table.lookup, ih]
      by_cases hk0 : k0 = h
      · subst hk0
        rw [if_pos rfl, if_neg (fun e => hk e.symm), if_pos rfl]
      · rw [if_neg hk0, if_neg hk0]

/-- Inserting a fresh key appends one binding. -/
theorem length_insert_of_lookup_none (t : Table) (k : Nat) (v : List Nat)
    (h : Table.lookup t k = none) :
    (Table.insert t k v).length = t.length + 1 := by
  induction t with
  | nil => rfl
  | cons p rest ih =>
    obtain ⟨k0, v0⟩ := p
    by_cases hk : k0 = k
    · rw [Table.lookup, if_pos hk] at h; cases h
    · rw [Table.lookup, if_neg hk] at h
      simp only [Table.insert, if_neg hk, List.length_cons, ih h]

/-- One well-formed structure at the head of the buffer is consumed in
exactly one iteration: the walker finds its terminator inside it and
strips off precisely its own bytes. -/
theorem walkAux_step (fuel : Nat) (s rest : List Nat) (t : Table)
    (hwf : WellFormed s) :
    walkAux (fuel + 1) (s ++ rest) t =
      walkAux fuel rest (Table.insert t (handleOf s) s) := by
  obtain ⟨h4, hlen, hfind⟩ := hwf
  have hsl : 6 ≤ s.length := by omega
  have h1 : (s ++ rest).getD 1 0 = s.getD 1 0 :=
    List.getD_append _ _ _ _ (by omega)
  have hdrop : (s ++ rest).drop (s.getD 1 0) = s.drop (s.getD 1 0) ++ rest :=
    List.drop_append_of_le_length (by omega)
  have hfind2 : findPair ((s ++ rest).drop (s.getD 1 0)) =
      some (s.length - (s.getD 1 0 + 2)) := by
    rw [hdrop]; exact findPair_append_some _ _ _ hfind
  have hul : unformattedLen (s ++ rest) (s.getD 1 0) = s.length - s.getD 1 0 := by
    unfold unformattedLen
    rw [hfind2]
    show s.length - (s.getD 1 0 + 2) + 2 = s.length - s.getD 1 0
    omega
  have hh : handleOf (s ++ rest) = handleOf s := by
    unfold handleOf
    rw [List.getD_append _ _ _ _ (by omega), List.getD_append _ _ _ _ (by omega)]
  rw [walkAux_succ,
    if_neg (by rw [List.length_append]; omega),
    if_neg (by rw [List.length_append]; omega),
    h1, hul, hh]
  have hsum : s.getD 1 0 + (s.length - s.getD 1 0) = s.length := by omega
  rw [hsum, List.take_left, List.drop_left]

/-- Walking a concatenation of well-formed structures performs the dict
insertions in table order, starting from any table and enough fuel. -/
theorem walkAux_flatten (structs : List (List Nat))
    (hwf : ∀ s ∈ structs, WellFormed s) :
    ∀ (fuel : Nat) (t : Table), structs.flatten.length ≤ fuel →
      walkAux fuel structs.flatten t =
        .ok (structs.foldl (fun acc s => Table.insert acc (handleOf s) s) t) := by
  induction structs with
  | nil =>
    intro fuel t _
    rw [List.flatten_nil, List.foldl_nil]
    exact walkAux_short fuel [] t (by simp)
  | cons s ss ih =>
    intro fuel t hfuel
    have hs : WellFormed s := hwf s (List.mem_cons_self _ _)
    have hsl : 6 ≤ s.length := by
      obtain ⟨a, b, _⟩ := hs; omega
    rw [List.flatten_cons] at hfuel ⊢
    rw [List.length_append] at hfuel
    cases fuel with
    | zero => omega
    | succ f =>
      rw [walkAux_step f s ss.flatten t hs]
      rw [walkAux_congr f ss.flatten.length ss.flatten _ (by omega) le_rfl]
      rw [List.foldl_cons]
      exact ih (fun x hx => hwf x (List.mem_cons_of_mem _ hx)) _ _ le_rfl

/-- Looking up a handle in the table built by folding dict insertions
yields the last structure carrying that handle, else falls through to
the initial table. -/
theorem lookup_foldl_insert (structs : List (List Nat)) :
    ∀ (t : Table) (h : Nat),
      Table.lookup (structs.foldl (fun acc s => Table.insert acc (handleOf s) s) t) h =
        match lastWith h structs with
        | some r => some r
        | none => Table.lookup t h := by
  induction structs with
  | nil => intro t h; rfl
  | cons s ss ih =>
    intro t h
    rw [List.foldl_cons, ih]
    cases hq : lastWith h ss with
    | some r => simp [lastWith, hq]
    | none =>
      simp only [lastWith, hq]
      rw [lookup_insert]
      by_cases hh : handleOf s = h
      · rw [if_pos hh, if_pos hh]
      · rw [if_neg hh, if_neg hh]

/-- No structure in the list has handle `h`, so the "last write" for
`h` is absent. -/
theorem lastWith_eq_none (structs : List (List Nat)) (h : Nat)
    (hall : ∀ b ∈ structs, handleOf b ≠ h) : lastWith h structs = none := by
  induction structs with
  | nil => rfl
  | cons a ss ih =>
    have hr := ih (fun b hb => hall b (List.mem_cons_of_mem _ hb))
    simp only [lastWith, hr]
    rw [if_neg (hall a (List.mem_cons_self _ _))]

/-- With pairwise-distinct handles, the last structure with the handle
of `s` is `s` itself. -/
theorem lastWith_eq_some_of_mem (structs : List (List Nat)) (s : List Nat)
    (hmem : s ∈ structs)
    (hdist : structs.Pairwise (fun a b => handleOf a ≠ handleOf b)) :
    lastWith (handleOf s) structs = some s := by
  induction structs with
  | nil => cases hmem
  | cons a ss ih =>
    rw [List.pairwise_cons] at hdist
    obtain ⟨ha, hd⟩ := hdist
    rcases List.mem_cons.mp hmem with rfl | hmem2
    · have hn : lastWith (handleOf s) ss = none :=
        lastWith_eq_none ss _ (fun b hb e => ha b hb e.symm)
      simp [lastWith, hn]
    · have hr := ih hmem2 hd
      simp only [lastWith, hr]

/-- With pairwise-distinct handles none of which occurs in the initial
table, folding the dict insertions adds exactly one binding per
structure. -/
theorem length_foldl_insert (structs : List (List Nat)) :
    ∀ t : Table,
      (∀ s ∈ structs, Table.lookup t (handleOf s) = none) →
      structs.Pairwise (fun a b => handleOf a ≠ handleOf b) →
      (structs.foldl (fun acc s => Table.insert acc (handleOf s) s) t).length =
        t.length + structs.length := by
  induction structs with
  | nil => intro t _ _; simp
  | cons s ss ih =>
    intro t hnone hdist
    rw [List.pairwise_cons] at hdist
    obtain ⟨ha, hd⟩ := hdist
    rw [List.foldl_cons]
    rw [ih (Table.insert t (handleOf s) s) ?_ hd]
    · rw [length_insert_of_lookup_none t _ _ (hnone s (List.mem_cons_self _ _))]
      rw [List.length_cons]
      omega
    · intro b hb
      rw [lookup_insert, if_neg (ha b hb)]
      exact hnone b (List.mem_cons_of_mem _ hb)

/-! ## Claim theorems -/

/-- Claim C1 (code_bug evaluation).  On a 28-byte Type-1 structure
whose byte at offset `i` has value `i`, the decoder returns
manufacturer 5, product-name 6, version 7, serial-number 8, wake-up 25,
SKU 26 and family 27: the single-byte fields are read from offsets
5/6/7/8/25/26/27, one past the offsets 4/5/6/7/24/25/26 the claim (and
the DMTF v2.6.1 layout the source docstring cites) prescribes.  Only
the UUID, taken from offsets 8–23, is read where the claim says. -/
theorem parse_type1_reads_shifted_offsets :
    parse_type1 [(1, List.range 28)] =
      .ok ⟨1, 770, 5, 6, 7, 8,
        [8, 9, 10, 11, 12, 13, 14, 15, 16, 17, 18, 19, 20, 21, 22, 23],
        25, some 26, some 27⟩ := by rfl

/-- Claim C2 (counterexample).  For the UUID bytes
`00 11 22 33 44 55 66 77 88 99 AA BB CC DD EE FF` the formatter does
not produce the claimed string `00-11-22-33-4455-6677-8899-aabbccddeeff`:
Python's `%x` renders the zero byte as `0`, not `00`, and the format
string hyphenates after bytes 3, 5, 7 and 9 only. -/
theorem format_uuid_claim_counterexample :
    format_uuid [0x00, 0x11, 0x22, 0x33, 0x44, 0x55, 0x66, 0x77,
        0x88, 0x99, 0xAA, 0xBB, 0xCC, 0xDD, 0xEE, 0xFF] ≠
      "00-11-22-33-4455-6677-8899-aabbccddeeff" := by decide

/-- Claim C2 (amended).  Each byte is rendered as minimal-width
lowercase hex (a zero byte renders as `0`, not `00`), with hyphens
after bytes 3, 5, 7 and 9; for the UUID bytes
`00 11 22 33 44 55 66 77 88 99 AA BB CC DD EE FF` the output is
exactly `0112233-4455-6677-8899-aabbccddeeff`. -/
theorem format_uuid_unpadded :
    pyHex 0 = "0" ∧
    format_uuid [0x00, 0x11, 0x22, 0x33, 0x44, 0x55, 0x66, 0x77,
        0x88, 0x99, 0xAA, 0xBB, 0xCC, 0xDD, 0xEE, 0xFF] =
      "0112233-4455-6677-8899-aabbccddeeff" := by
  constructor <;> decide

/-- Claim C3 (counterexample).  The buffer `[1, 5, 1, 0]` declares a
formatted length of 5 but only 4 bytes remain; the walk does not fail
at all — it returns a table containing the truncated bytes. -/
theorem walk_truncated_counterexample :
    walk_structure [1, 5, 1, 0] = .ok [(1, [1, 5, 1, 0])] := by rfl

/-- Claim C3 (amended).  When the (first) structure declares a
formatted length larger than the whole remaining buffer and at least
4 bytes are present, the walk succeeds, storing all remaining bytes as
that structure's entry: `data[formatted_len:]` is empty, `find`
returns `-1`, so `unformatted_len = 1` and the slice
`data[:formatted_len+1]` is the entire remainder.  No error is ever
reported for the truncation. -/
theorem walk_truncated_returns_table (data : List Nat)
    (h4 : 4 ≤ data.length) (htr : data.length < data.getD 1 0) :
    walk_structure data = .ok [(handleOf data, data)] := by
  unfold walk_structure
  have hul : unformattedLen data (data.getD 1 0) = 1 := by
    unfold unformattedLen
    rw [List.drop_eq_nil_of_le (by omega)]
    rfl
  cases hf : data.length with
  | zero => omega
  | succ f =>
    rw [walkAux_succ, if_neg (by omega), if_neg (by omega), hul]
    rw [List.take_of_length_le (by omega), List.drop_eq_nil_of_le (by omega)]
    exact walkAux_short f [] _ (by simp)

/-- Claim C3 amended, instantiated: the walk of `[2, 7, 3, 1]`
(declared length 7, only 4 bytes) succeeds with the whole buffer
stored under handle `3 + 256 * 1`. -/
theorem walk_truncated_returns_table_witness :
    walk_structure [2, 7, 3, 1] = .ok [(handleOf [2, 7, 3, 1], [2, 7, 3, 1])] :=
  walk_truncated_returns_table [2, 7, 3, 1] (by decide) (by decide)

/-- Claim C4 (counterexample).  In `[1, 4, 1, 0, 255]` the unformatted
section starting at the declared length 4 is `[255]`, which contains
no `0x00 0x00` terminator; yet the walk succeeds instead of failing
with a malformed-table error. -/
theorem walk_missing_terminator_counterexample :
    walk_structure [1, 4, 1, 0, 255] = .ok [(1, [1, 4, 1, 0, 255])] := by rfl

/-- Claim C4 (amended).  When no `0x00 0x00` terminator exists at or
after offset `formatted_len`, the walk does not fail there: `find`
returns `-1`, the unformatted section is taken to be a single byte,
`data[:formatted_len+1]` is stored under the handle, and the walk
continues on the remainder. -/
theorem walk_missing_terminator_continues (fuel : Nat) (data : List Nat)
    (t : Table) (h4 : 4 ≤ data.length)
    (hterm : findPair (data.drop (data.getD 1 0)) = none) :
    walkAux (fuel + 1) data t =
      walkAux fuel (data.drop (data.getD 1 0 + 1))
        (Table.insert t (handleOf data) (data.take (data.getD 1 0 + 1))) := by
  have hul : unformattedLen data (data.getD 1 0) = 1 := by
    unfold unformattedLen
    rw [hterm]
  rw [walkAux_succ, if_neg (by omega), if_neg (by omega), hul]

/-- Claim C4 amended, instantiated at `[1, 4, 1, 0, 255]`. -/
theorem walk_missing_terminator_continues_witness :
    walkAux 1 [1, 4, 1, 0, 255] [] =
      walkAux 0 ([1, 4, 1, 0, 255].drop ([1, 4, 1, 0, 255].getD 1 0 + 1))
        (Table.insert [] (handleOf [1, 4, 1, 0, 255])
          ([1, 4, 1, 0, 255].take ([1, 4, 1, 0, 255].getD 1 0 + 1))) :=
  walk_missing_terminator_continues 0 [1, 4, 1, 0, 255] [] (by decide) (by decide)

/-- Claim C5 (code_bug evaluation).  A 25-byte Type-1 structure — the
minimum the claim says must decode successfully — makes the decoder
fail with an `IndexError`: the wake-up-type read `raw_data[25]` needs
at least 26 bytes because of the same off-by-one shift as in C1.  The
failure is an uncaught exception, not a `TruncatedStructure` value. -/
theorem parse_type1_25_bytes_fails :
    parse_type1 [(1, List.range 25)] = .error .indexError := by rfl

/-- Claim C6: for every well-formed single-structure buffer — type
byte, length byte `L ≥ 4` declared at offset 1, fixed fields through
offset `L - 1`, then the `0x00 0x00` terminator ending the buffer —
the walk returns exactly one entry, keyed by the little-endian 16-bit
handle at bytes 2–3, whose raw bytes are the whole input buffer. -/
theorem walk_single_structure (L : Nat) (fixed : List Nat)
    (hL : 4 ≤ L) (hlen : fixed.length = L) (hdecl : fixed.getD 1 0 = L) :
    walk_structure (fixed ++ [0, 0]) =
      .ok [(fixed.getD 2 0 + 256 * fixed.getD 3 0, fixed ++ [0, 0])] := by
  have hwf : WellFormed (fixed ++ [0, 0]) := by
    refine ⟨?_, ?_, ?_⟩
    · rw [List.getD_append _ _ _ _ (by omega), hdecl]
      exact hL
    · rw [List.getD_append _ _ _ _ (by omega), hdecl, List.length_append]
      simp [hlen]
    · rw [List.getD_append _ _ _ _ (by omega), hdecl, ← hlen, List.drop_left]
      rw [List.length_append, hlen]
      show findPair [0, 0] = some (L + 2 - (L + 2))
      rw [Nat.sub_self]
      rfl
  have hh : handleOf (fixed ++ [0, 0]) = fixed.getD 2 0 + 256 * fixed.getD 3 0 := by
    unfold handleOf
    rw [List.getD_append _ _ _ _ (by omega), List.getD_append _ _ _ _ (by omega)]
  unfold walk_structure
  have hlen2 : (fixed ++ [0, 0]).length = (L + 1) + 1 := by
    rw [List.length_append, hlen]; rfl
  rw [hlen2]
  have hstep := walkAux_step (L + 1) (fixed ++ [0, 0]) [] [] hwf
  rw [List.append_nil] at hstep
  rw [hstep, hh]
  exact walkAux_short _ _ _ (by simp)

/-- Claim C6, instantiated: the buffer `[1, 4, 7, 0] ++ [0, 0]` walks
to the single entry `(7, whole buffer)`. -/
theorem walk_single_structure_witness :
    walk_structure ([1, 4, 7, 0] ++ [0, 0]) =
      .ok [([1, 4, 7, 0].getD 2 0 + 256 * [1, 4, 7, 0].getD 3 0,
            [1, 4, 7, 0] ++ [0, 0])] :=
  walk_single_structure 4 [1, 4, 7, 0] (by decide) (by decide) (by decide)

/-- Claim C7: walking the concatenation of `N` well-formed structures
with pairwise-distinct handles recovers exactly `N` entries, and the
raw bytes stored under each structure's handle are byte-identical to
that structure (so no entry contains bytes of another structure). -/
theorem walk_roundtrip (structs : List (List Nat))
    (hwf : ∀ s ∈ structs, WellFormed s)
    (hdist : structs.Pairwise (fun a b => handleOf a ≠ handleOf b)) :
    ∃ T : Table, walk_structure structs.flatten = .ok T ∧
      T.length = structs.length ∧
      ∀ s ∈ structs, Table.lookup T (handleOf s) = some s := by
  refine ⟨tableOf structs, ?_, ?_, ?_⟩
  · unfold walk_structure tableOf
    exact walkAux_flatten structs hwf _ _ le_rfl
  · unfold tableOf
    rw [length_foldl_insert structs [] (fun s _ => rfl) hdist]
    rw [List.length_nil, Nat.zero_add]
  · intro s hs
    unfold tableOf
    rw [lookup_foldl_insert structs [] (handleOf s),
      lastWith_eq_some_of_mem structs s hs hdist]

/-- Claim C7, instantiated for two structures with handles 7 and 9. -/
theorem walk_roundtrip_witness :
    ∃ T : Table,
      walk_structure ([[1, 4, 7, 0, 0, 0], [2, 4, 9, 0, 0, 0]] :
        List (List Nat)).flatten = .ok T ∧
      T.length = 2 ∧
      ∀ s ∈ ([[1, 4, 7, 0, 0, 0], [2, 4, 9, 0, 0, 0]] : List (List Nat)),
        Table.lookup T (handleOf s) = some s :=
  walk_roundtrip [[1, 4, 7, 0, 0, 0], [2, 4, 9, 0, 0, 0]] (by decide) (by decide)

/-- Claim C8: walking any concatenation of well-formed structures —
including ones sharing a handle — succeeds, and the table entry for
every handle `h` is the raw bytes of the last structure in table order
whose handle is `h` (last write wins in the dict insertion). -/
theorem walk_last_write_wins (structs : List (List Nat))
    (hwf : ∀ s ∈ structs, WellFormed s) (h : Nat) :
    ∃ T : Table, walk_structure structs.flatten = .ok T ∧
      Table.lookup T h = lastWith h structs := by
  refine ⟨tableOf structs, ?_, ?_⟩
  · unfold walk_structure tableOf
    exact walkAux_flatten structs hwf _ _ le_rfl
  · unfold tableOf
    rw [lookup_foldl_insert structs [] h]
    cases lastWith h structs <;> rfl

/-- Claim C8, instantiated: two structures both carrying handle 7; the
entry for 7 is the second (last) one. -/
theorem walk_last_write_wins_witness :
    ∃ T : Table,
      walk_structure ([[1, 4, 7, 0, 0, 0], [2, 4, 7, 0, 0, 0]] :
        List (List Nat)).flatten = .ok T ∧
      Table.lookup T 7 = lastWith 7 [[1, 4, 7, 0, 0, 0], [2, 4, 7, 0, 0, 0]] :=
  walk_last_write_wins [[1, 4, 7, 0, 0, 0], [2, 4, 7, 0, 0, 0]] (by decide) 7

/-- Claim C9: when the walked table has no entry with handle 1,
`parse_type1` fails with the handle-not-found error (the `KeyError`
raised by `table_data[1]`, modelled as an error value) — not with any
other error, and with no decoded record. -/
theorem parse_type1_handle_not_found (t : Table)
    (h : Table.lookup t 1 = none) :
    parse_type1 t = .error .handleNotFound := by
  unfold parse_type1
  rw [h]

/-- Claim C9, instantiated on a table holding only handle 2. -/
theorem parse_type1_handle_not_found_witness :
    parse_type1 [(2, List.range 28)] = .error .handleNotFound :=
  parse_type1_handle_not_found [(2, List.range 28)] (by decide)

/-- Claim C10: the walk terminates on every input.  The consumed
length `formatted_len + unformatted_len` of an iteration is at least 1
because `unformatted_len` is at least 1 even when no `0x00 0x00`
terminator is found, so each iteration entered with at least 2 bytes
strictly shrinks the remaining buffer; and the loop exits (returning
the table built so far) as soon as fewer than 2 bytes remain. -/
theorem walk_structure_terminates_always :
    (∀ (data : List Nat) (fl : Nat), 1 ≤ unformattedLen data fl) ∧
    (∀ data : List Nat, 2 ≤ data.length →
      (data.drop (data.getD 1 0 + unformattedLen data (data.getD 1 0))).length
        < data.length) ∧
    (∀ (fuel : Nat) (data : List Nat) (t : Table), data.length < 2 →
      walkAux fuel data t = .ok t) := by
  refine ⟨unformattedLen_pos, ?_, fun fuel data t h => walkAux_short fuel data t h⟩
  intro data h2
  have := unformattedLen_pos data (data.getD 1 0)
  rw [List.length_drop]
  omega

/-- Claim C10, instantiated: progress on `[9, 9]` and loop exit on the
1-byte buffer `[7]`. -/
theorem walk_structure_terminates_always_witness :
    1 ≤ unformattedLen [9, 9] 9 ∧
    ([9, 9].drop ([9, 9].getD 1 0 + unformattedLen [9, 9] ([9, 9].getD 1 0))).length
      < 2 ∧
    walkAux 5 [7] [] = .ok [] :=
  ⟨walk_structure_terminates_always.1 [9, 9] 9,
   walk_structure_terminates_always.2.1 [9, 9] (by decide),
   walk_structure_terminates_always.2.2 5 [7] [] (by decide)⟩
